import Mathlib

/- Shallow embedding of the DLR adapter layer for the Treelite and Hexagon
   backends, translated from src/dlr_treelite.cc and
   src/dlr_hexagon/dlr_hexagon.cc.  Fatal paths (LOG(FATAL), failed CHECK
   macros) are modelled by returning none. -/

/-- Modelled from the spec: the EndsWith helper from dlr_common (declared
outside the analysed sources) tests whether a filename ends with the given
suffix. -/
def EndsWith (f sfx : String) : Bool := sfx.data.isSuffixOf f.data

/-- Artifact record built by TreeliteModel.InitModelArtifact.  The C++ uses
the empty string as the not-found sentinel for both fields; since a directory
entry is never the empty string this is modelled by Option. -/
structure TreeliteModelArtifact where
  model_lib : Option String := none
  ver_json : Option String := none
deriving DecidableEq, Repr

/-- One iteration of the classification loop of
TreeliteModel.InitModelArtifact (dlr_treelite.cc lines 12-18). -/
def treeliteClassifyStep (libdlr libext : String) (a : TreeliteModelArtifact)
    (f : String) : TreeliteModelArtifact :=
  if (f != libdlr) && EndsWith f libext then { a with model_lib := some f }
  else if f == ("version.json") then { a with ver_json := some f }
  else a

/-- Final emptiness check of TreeliteModel.InitModelArtifact
(dlr_treelite.cc lines 19-27): fatal when no model library was found,
otherwise the artifact is stored. -/
def finishTreeliteArtifact (a : TreeliteModelArtifact) :
    Option TreeliteModelArtifact :=
  match a.model_lib with
  | none => none
  | some _ => some a

/-- TreeliteModel.InitModelArtifact (dlr_treelite.cc lines 9-28), parametrised
by the platform constants LIBDLR and LIBEXT, which are declared outside the
analysed sources.  The argument list is the flattened directory listing.
Returns none exactly on the fatal path (no model library found). -/
def TreeliteModel.InitModelArtifact (libdlr libext : String)
    (filenames : List String) : Option TreeliteModelArtifact :=
  finishTreeliteArtifact
    (filenames.foldl (treeliteClassifyStep libdlr libext) {})

/-- The predicate selecting Treelite model-library candidates in the
classification loop: any file other than LIBDLR that ends in LIBEXT. -/
def treeliteLibMatch (libdlr libext : String) (f : String) : Bool :=
  (f != libdlr) && EndsWith f libext

/-- Artifact record built by HexagonModel.InitModelArtifact.  The C++ uses the
empty string as the not-found sentinel; since every match ends in a nonempty
fixed suffix or equals a fixed nonempty name, this is modelled by Option. -/
structure HexagonModelArtifact where
  model_file : Option String := none
  skeleton_file : Option String := none
deriving DecidableEq, Repr

/-- The predicate selecting Hexagon model-file candidates
(dlr_hexagon.cc line 15). -/
def hexagonLibMatch (f : String) : Bool := EndsWith f ("_hexagon_model.so")

/-- One iteration of the classification loop of HexagonModel.InitModelArtifact
(dlr_hexagon.cc lines 14-25).  A second matching file hits LOG(FATAL),
modelled as none; none then propagates through the rest of the fold. -/
def hexagonClassifyStep (oa : Option HexagonModelArtifact) (f : String) :
    Option HexagonModelArtifact :=
  match oa with
  | none => none
  | some a =>
    if hexagonLibMatch f then
      match a.model_file with
      | none => some { a with model_file := some f }
      | some _ => none
    else if f == ("libhexagon_nn_skel.so") then
      some { a with skeleton_file := some f }
    else some a

/-- Final emptiness check of HexagonModel.InitModelArtifact
(dlr_hexagon.cc lines 27-29): fatal if no model file was found. -/
def finishHexagonArtifact (oa : Option HexagonModelArtifact) :
    Option HexagonModelArtifact :=
  match oa with
  | none => none
  | some a =>
    match a.model_file with
    | none => none
    | some _ => some a

/-- HexagonModel.InitModelArtifact (dlr_hexagon.cc lines 11-42) applied to the
directory listing. -/
def HexagonModel.InitModelArtifact (filenames : List String) :
    Option HexagonModelArtifact :=
  finishHexagonArtifact (filenames.foldl hexagonClassifyStep (some {}))

/-- Discovered tensor metadata (HexagonTensorSpec in dlr_hexagon.h): name,
rank, per-axis extents (length = dim), byte size, element count. -/
structure HexagonTensorSpec where
  name : String
  dim : Nat
  shape : List Int
  bytes : Nat
  size : Nat
deriving DecidableEq, Repr

/-- Default used to model the unchecked vector indexing of the C++; all
accesses proved about stay in bounds. -/
def emptyHexSpec : HexagonTensorSpec :=
  { name := "", dim := 0, shape := [], bytes := 0, size := 0 }

/-- Runtime state of HexagonModel: discovered specs, mirrored input names,
the two counts, and the backend-owned input and output byte buffers
(modelled as total functions from byte offset to byte value). -/
structure HexagonModel where
  input_tensors_spec_ : List HexagonTensorSpec
  output_tensors_spec_ : List HexagonTensorSpec
  input_names_ : List String
  num_inputs_ : Nat
  num_outputs_ : Nat
  input_ : Nat → Nat
  output_ : Nat → Nat

/-- std::memcpy(dst, src, n) on byte buffers. -/
def memcpy (dst src : Nat → Nat) (n : Nat) : Nat → Nat :=
  fun k => if k < n then src k else dst k

/-- The C++ conversion of a signed integer to size_t (64-bit unsigned). -/
def toSizeT (x : Int) : Nat := (x % (2 ^ 64 : Int)).toNat

/-- HexagonModel::GetInputId (dlr_hexagon.cc lines 154-164): linear scan of
the input specs by exact name match; fatal (none) when absent. -/
def HexagonModel.GetInputId (m : HexagonModel) (name : String) : Option Nat :=
  (List.range m.num_inputs_).find? (fun i =>
    (m.input_tensors_spec_.getD i emptyHexSpec).name == name)

/-- Body of HexagonModel::SetInput after name resolution
(dlr_hexagon.cc lines 213-219): CHECK dim equals the spec rank, CHECK every
shape element equals the recorded extent (the loop bound dim equals spec.dim
once the first CHECK passed), then copy exactly spec.bytes bytes. -/
def hexagonSetInputAt (m : HexagonModel) (index : Nat) (shape : Nat → Int)
    (input : Nat → Nat) (dim : Int) : Option HexagonModel :=
  if dim = ((m.input_tensors_spec_.getD index emptyHexSpec).dim : Int) then
    if (List.range (m.input_tensors_spec_.getD index emptyHexSpec).dim).all
        (fun i => shape i
          == (m.input_tensors_spec_.getD index emptyHexSpec).shape.getD i 0)
    then
      some { m with
        input_ := memcpy m.input_ input
          (m.input_tensors_spec_.getD index emptyHexSpec).bytes }
    else none
  else none

/-- HexagonModel::SetInput (dlr_hexagon.cc lines 209-220). -/
def HexagonModel.SetInput (m : HexagonModel) (name : String)
    (shape : Nat → Int) (input : Nat → Nat) (dim : Int) :
    Option HexagonModel :=
  (m.GetInputId name).bind (fun index =>
    hexagonSetInputAt m index shape input dim)

/-- HexagonModel::GetInput (dlr_hexagon.cc lines 222-225): copy spec.bytes
bytes from the backend input buffer into the caller buffer. -/
def HexagonModel.GetInput (m : HexagonModel) (name : String)
    (out : Nat → Nat) : Option (Nat → Nat) :=
  (m.GetInputId name).map (fun index =>
    memcpy out m.input_
      (m.input_tensors_spec_.getD index emptyHexSpec).bytes)

/-- HexagonModel::GetOutput (dlr_hexagon.cc lines 234-237).  index is a C
int; num_outputs_ is the size_t count field of the base class (declared
outside the analysed sources, modelled from the spec), so CHECK_LT compares
after the usual int-to-size_t conversion. -/
def HexagonModel.GetOutput (m : HexagonModel) (index : Int)
    (out : Nat → Nat) : Option (Nat → Nat) :=
  if toSizeT index < m.num_outputs_ then
    some (memcpy out m.output_
      (m.output_tensors_spec_.getD index.toNat emptyHexSpec).bytes)
  else none

/-- Concrete input spec used by witnesses: rank 2, extents [2, 2], 4 bytes. -/
def hexWSpec : HexagonTensorSpec :=
  { name := "x", dim := 2, shape := [2, 2], bytes := 4, size := 4 }

/-- Concrete output spec used by witnesses: rank 1, extent [3], 3 bytes. -/
def hexWOutSpec : HexagonTensorSpec :=
  { name := "y", dim := 1, shape := [3], bytes := 3, size := 3 }

/-- Concrete Hexagon model used by witnesses. -/
def hexW : HexagonModel :=
  { input_tensors_spec_ := [hexWSpec]
    output_tensors_spec_ := [hexWOutSpec]
    input_names_ := ["x"]
    num_inputs_ := 1
    num_outputs_ := 1
    input_ := fun _ => 0
    output_ := fun k => k + 100 }

/-- The discovery loop of HexagonModel::GenTensorSpec (dlr_hexagon.cc lines
116-141): query ascending ids starting at the given id until the backend
returns a nonzero code (modelled as none), collecting one spec per successful
query.  The C++ while loop has no bound; fuel makes the recursion structural
and all theorems assume the backend terminates within fuel steps. -/
def discoverSpecs (query : Nat → Option HexagonTensorSpec) :
    Nat → Nat → List HexagonTensorSpec
  | 0, _ => []
  | fuel + 1, id =>
    match query id with
    | none => []
    | some s => s :: discoverSpecs query fuel (id + 1)

/-- HexagonModel::GenTensorSpec (dlr_hexagon.cc lines 107-142): append the
discovered specs to the input or output sequence; input names are mirrored
into input_names_ in the same order. -/
def HexagonModel.GenTensorSpec (m : HexagonModel)
    (query : Nat → Option HexagonTensorSpec) (isInput : Bool) (fuel : Nat) :
    HexagonModel :=
  if isInput then
    { m with
      input_tensors_spec_ :=
        m.input_tensors_spec_ ++ discoverSpecs query fuel 0,
      input_names_ :=
        m.input_names_ ++ (discoverSpecs query fuel 0).map (fun s => s.name) }
  else
    { m with
      output_tensors_spec_ :=
        m.output_tensors_spec_ ++ discoverSpecs query fuel 0 }

/-- HexagonModel::InitInputOutputTensorSpecs (dlr_hexagon.cc lines 144-152):
discover inputs, record the count, discover outputs, record the count. -/
def HexagonModel.InitInputOutputTensorSpecs (m : HexagonModel)
    (inQuery outQuery : Nat → Option HexagonTensorSpec) (fuel : Nat) :
    HexagonModel :=
  let m1 := m.GenTensorSpec inQuery true fuel
  let m2 := { m1 with num_inputs_ := m1.input_tensors_spec_.length }
  let m3 := m2.GenTensorSpec outQuery false fuel
  { m3 with num_outputs_ := m3.output_tensors_spec_.length }

/-- Modelled from the spec: GetNumInputs of the common Model interface
(declared outside the analysed sources) returns the recorded input count. -/
def HexagonModel.GetNumInputs (m : HexagonModel) : Nat := m.num_inputs_

/-- Modelled from the spec: GetNumOutputs of the common Model interface
(declared outside the analysed sources) returns the recorded output count. -/
def HexagonModel.GetNumOutputs (m : HexagonModel) : Nat := m.num_outputs_

/-- Concrete input query used by the C9 witness: one input spec at id 0. -/
def hexQin : Nat → Option HexagonTensorSpec :=
  fun i => if i = 0 then some hexWSpec else none

/-- Concrete output query used by the C9 witness: two output specs. -/
def hexQout : Nat → Option HexagonTensorSpec :=
  fun i => if i < 2 then some hexWOutSpec else none

/-- Freshly constructed Hexagon model state before schema discovery. -/
def hexM0 : HexagonModel :=
  { input_tensors_spec_ := []
    output_tensors_spec_ := []
    input_names_ := []
    num_inputs_ := 0
    num_outputs_ := 0
    input_ := fun _ => 0
    output_ := fun _ => 0 }

/-- A float32 cell as TreeliteModel::SetInput observes it: the only operation
applied to a cell is std::isnan (the value itself is just stored), so a cell
is an abstract payload together with its isnan flag. -/
structure F32 where
  bits : Nat
  isnan : Bool
deriving DecidableEq, Repr

/-- A value-initialised float, used by std::vector resize padding. -/
def F32zero : F32 := { bits := 0, isnan := false }

/-- The arguments registered with the backend by TreeliteAssembleSparseBatch
(dlr_treelite.cc lines 129-134). -/
structure SparseBatchHandle where
  data : List F32
  col_ind : List Nat
  row_ptr : List Nat
  num_row : Nat
  num_col : Nat
deriving DecidableEq, Repr

/-- The TreeliteInput record (dlr_treelite.h): CSR buffers, saved dimensions,
and the registered backend handle. -/
structure TreeliteInput where
  data : List F32
  col_ind : List Nat
  row_ptr : List Nat
  num_row : Nat
  num_col : Nat
  handle : SparseBatchHandle
deriving DecidableEq, Repr

/-- Runtime state of TreeliteModel: feature count and output sizes queried at
load time, the current sparse input (null before the first SetInput), and the
output vector. -/
structure TreeliteModel where
  treelite_num_feature_ : Nat
  treelite_output_buffer_size_ : Nat
  treelite_output_size_ : Nat
  treelite_input_ : Option TreeliteInput
  treelite_output_ : List F32
deriving DecidableEq, Repr

/-- The C++ conversion of a signed integer to uint32_t. -/
def toUInt32Nat (x : Int) : Nat := (x % (2 ^ 32 : Int)).toNat

/-- The inner loop of TreeliteModel::SetInput for row i (dlr_treelite.cc
lines 111-116): the (value, column) pairs pushed for row i, in column order,
skipping the NaN cells of the row-major buffer. -/
def rowEntries (input : Nat → F32) (numCol i : Nat) : List (F32 × Nat) :=
  (List.range numCol).filterMap (fun j =>
    if (input (i * numCol + j)).isnan then none
    else some (input (i * numCol + j), j))

/-- All pairs pushed by the nested row/column loop (dlr_treelite.cc lines
110-118), rows first. -/
def csrPairs (input : Nat → F32) (numCol batch : Nat) : List (F32 × Nat) :=
  (List.range batch).flatMap (fun i => rowEntries input numCol i)

/-- row_ptr after the loop: entry k is data.size() after the first k rows. -/
def csrRowPtr (input : Nat → F32) (numCol batch : Nat) : List Nat :=
  (List.range (batch + 1)).map (fun k => (csrPairs input numCol k).length)

/-- The TreeliteInput built by SetInput once validation passed
(dlr_treelite.cc lines 104-132): data and col_ind are the pushed pairs,
num_row is the batch size, and both the saved num_col and the assembled
sparse batch use the declared feature count, not the caller column count. -/
def mkCsrInput (features : Nat) (input : Nat → F32) (numCol batch : Nat) :
    TreeliteInput :=
  { data := (csrPairs input numCol batch).map Prod.fst
    col_ind := (csrPairs input numCol batch).map Prod.snd
    row_ptr := csrRowPtr input numCol batch
    num_row := batch
    num_col := features
    handle :=
      { data := (csrPairs input numCol batch).map Prod.fst
        col_ind := (csrPairs input numCol batch).map Prod.snd
        row_ptr := csrRowPtr input numCol batch
        num_row := batch
        num_col := features } }

/-- The three CHECK_EQ postconditions of SetInput (dlr_treelite.cc lines
119-122), kept as guards; they are proved to always hold. -/
def csrPost (ti : TreeliteInput) (batch : Nat) : Prop :=
  ti.data.length = ti.col_ind.length ∧
  ti.row_ptr.getLast? = some ti.data.length ∧
  ti.row_ptr.length = batch + 1

instance (ti : TreeliteInput) (batch : Nat) : Decidable (csrPost ti batch) :=
  by unfold csrPost; infer_instance

/-- TreeliteModel::SetInput (dlr_treelite.cc lines 91-135).  The name
argument is never read.  CHECK_SHAPE requires dim == 2 (macro declared
outside the analysed sources; per the spec a mismatch is fatal); CHECK_LE
requires the size_t cast of shape[1] to be at most the declared feature
count; the loop reads shape[0] as size_t and shape[1] as uint32_t. -/
def TreeliteModel.SetInput (m : TreeliteModel) (name : String)
    (shape0 shape1 : Int) (input : Nat → F32) (dim : Int) :
    Option TreeliteModel :=
  if dim = 2 then
    if toSizeT shape1 ≤ m.treelite_num_feature_ then
      if csrPost (mkCsrInput m.treelite_num_feature_ input
          (toUInt32Nat shape1) (toSizeT shape0)) (toSizeT shape0) then
        some { m with
          treelite_input_ := some (mkCsrInput m.treelite_num_feature_ input
            (toUInt32Nat shape1) (toSizeT shape0)) }
      else none
    else none
  else none

/-- std::vector::resize(n): keep the first n existing elements, pad with
value-initialised floats. -/
def listResize (l : List F32) (n : Nat) : List F32 :=
  l.take n ++ List.replicate (n - l.length) F32zero

/-- TreeliteModel::Run (dlr_treelite.cc lines 171-181): fatal without a prior
input; otherwise resize the output vector to num_row times the output-group
count and invoke batch prediction.  The returned pair records the resized
model state and the registered handle passed to
TreelitePredictorPredictBatch. -/
def TreeliteModel.Run (m : TreeliteModel) :
    Option (TreeliteModel × SparseBatchHandle) :=
  match m.treelite_input_ with
  | none => none
  | some ti =>
    some ({ m with
      treelite_output_ := listResize m.treelite_output_
        (ti.num_row * m.treelite_output_buffer_size_) }, ti.handle)

/-- TreeliteModel::GetOutputShape (dlr_treelite.cc lines 141-146): writes
[num_row, discovered output width], with -1 for the rows when no input has
been set; the index argument is not read. -/
def TreeliteModel.GetOutputShape (m : TreeliteModel) (index : Int) :
    Int × Int :=
  (match m.treelite_input_ with
   | some ti => (ti.num_row : Int)
   | none => -1,
   (m.treelite_output_size_ : Int))

/-- The CSR invariants established by a validated SetInput call: a cell is
appended to data (and its column to col_ind) iff it is not NaN, in
row-then-column order; the three length invariants hold; row_ptr is
monotonically non-decreasing with per-row deltas equal to the non-NaN count
of the row. -/
def CsrInvariants (m : TreeliteModel) (name : String) (shape0 shape1 : Int)
    (input : Nat → F32) : Prop :=
  ∃ ti, m.SetInput name shape0 shape1 input 2
      = some { m with treelite_input_ := some ti } ∧
    ti.data.length = ti.col_ind.length ∧
    ti.row_ptr.getLast? = some ti.data.length ∧
    ti.row_ptr.length = shape0.toNat + 1 ∧
    (∀ i, i + 1 < ti.row_ptr.length →
      ti.row_ptr.getD i 0 ≤ ti.row_ptr.getD (i + 1) 0) ∧
    (∀ i, i < shape0.toNat →
      ti.row_ptr.getD (i + 1) 0 - ti.row_ptr.getD i 0
        = ((List.range shape1.toNat).filter
            (fun j => !(input (i * shape1.toNat + j)).isnan)).length) ∧
    ti.data.zip ti.col_ind
      = (List.range shape0.toNat).flatMap (fun i =>
          ((List.range shape1.toNat).filter
            (fun j => !(input (i * shape1.toNat + j)).isnan)).map
            (fun j => (input (i * shape1.toNat + j), j)))

/-- Concrete Treelite model used by witnesses: 3 declared features, output
group count 2, discovered output width 1, no input set yet. -/
def treeliteW : TreeliteModel :=
  { treelite_num_feature_ := 3
    treelite_output_buffer_size_ := 2
    treelite_output_size_ := 1
    treelite_input_ := none
    treelite_output_ := [] }

/-- Concrete 2 x 2 row-major input buffer: only cell 1 (row 0, column 1) is
NaN. -/
def inW : Nat → F32 := fun k => { bits := k, isnan := k == 1 }

/-- Concrete sparse input built from the witness buffer. -/
def tiW : TreeliteInput := mkCsrInput 3 inW 2 2

/-- The witness model after a successful SetInput. -/
def treeliteWIn : TreeliteModel :=
  { treeliteW with treelite_input_ := some tiW }

theorem treeliteClassifyStep_model_lib_of_match (libdlr libext : String)
    (a : TreeliteModelArtifact) (f : String)
    (h : treeliteLibMatch libdlr libext f = true) :
    (treeliteClassifyStep libdlr libext a f).model_lib = some f := by
  unfold treeliteClassifyStep
  unfold treeliteLibMatch at h
  rw [h]
  rfl

theorem treeliteClassifyStep_model_lib_of_not_match (libdlr libext : String)
    (a : TreeliteModelArtifact) (f : String)
    (h : treeliteLibMatch libdlr libext f = false) :
    (treeliteClassifyStep libdlr libext a f).model_lib = a.model_lib := by
  unfold treeliteClassifyStep
  unfold treeliteLibMatch at h
  rw [h]
  by_cases hv : f == ("version.json")
  · simp [hv]
  · simp [hv]

theorem getLast?_cons_or {α : Type} (f : α) (l : List α) (x : Option α) :
    (f :: l).getLast?.or x = l.getLast?.or (some f) := by
  cases l with
  | nil => rfl
  | cons b t => rw [List.getLast?_cons_cons]; rfl

/-- The folded classification loop leaves model_lib equal to the last
matching filename, falling back to the accumulator value. -/
theorem treeliteClassify_model_lib (libdlr libext : String) :
    ∀ (files : List String) (a : TreeliteModelArtifact),
      (files.foldl (treeliteClassifyStep libdlr libext) a).model_lib
        = ((files.filter (treeliteLibMatch libdlr libext)).getLast?).or
            a.model_lib := by
  intro files
  induction files with
  | nil => intro a; rfl
  | cons f t ih =>
    intro a
    rw [List.foldl_cons, List.filter_cons]
    by_cases hm : treeliteLibMatch libdlr libext f = true
    · rw [if_pos hm, ih, getLast?_cons_or,
        treeliteClassifyStep_model_lib_of_match libdlr libext a f hm]
    · rw [if_neg hm, ih, treeliteClassifyStep_model_lib_of_not_match libdlr
        libext a f (Bool.not_eq_true _ ▸ hm)]

/-- Claim C3 (counterexample): a directory listing with two files matching the
platform library suffix (neither being the reserved runtime library name) does
not fail: the locator returns an artifact, silently keeping the second
candidate.  The claim asserts this situation is detected and fatal. -/
theorem treelite_locator_ambiguity_counterexample :
    (["a.so", "b.so"].filter (treeliteLibMatch ("libdlr.so") (".so"))).length
        = 2 ∧
    TreeliteModel.InitModelArtifact ("libdlr.so") (".so") ["a.so", "b.so"]
      = some { model_lib := some ("b.so"), ver_json := none } := by
  constructor
  · decide
  · decide

/-- Claim C3 (amended): the Treelite artifact locator performs no ambiguity
detection.  With zero files matching the platform library suffix (excluding
the reserved runtime library name) it fails fatally; with one or more matching
files it succeeds and records the last matching file in listing order. -/
theorem treelite_locator_last_match (libdlr libext : String)
    (files : List String) :
    (files.filter (treeliteLibMatch libdlr libext) = [] →
      TreeliteModel.InitModelArtifact libdlr libext files = none) ∧
    (∀ mlast,
      (files.filter (treeliteLibMatch libdlr libext)).getLast? = some mlast →
      ∃ a, TreeliteModel.InitModelArtifact libdlr libext files = some a ∧
        a.model_lib = some mlast) := by
  have hml := treeliteClassify_model_lib libdlr libext files {}
  constructor
  · intro hnil
    rw [hnil] at hml
    have hnone : (files.foldl (treeliteClassifyStep libdlr libext)
        {}).model_lib = none := hml
    unfold TreeliteModel.InitModelArtifact finishTreeliteArtifact
    rw [hnone]
  · intro mlast hlast
    rw [hlast] at hml
    have hsome : (files.foldl (treeliteClassifyStep libdlr libext)
        {}).model_lib = some mlast := hml
    refine ⟨files.foldl (treeliteClassifyStep libdlr libext) {}, ?_, hsome⟩
    unfold TreeliteModel.InitModelArtifact finishTreeliteArtifact
    rw [hsome]

/-- Claim C3 (amended, witness): concrete run with two matching candidates:
the locator succeeds and keeps the last one. -/
theorem treelite_locator_last_match_witness :
    ((["x.txt", "a.so", "b.so"].filter
        (treeliteLibMatch ("libdlr.so") (".so"))).getLast? = some ("b.so")) ∧
    (∃ a, TreeliteModel.InitModelArtifact ("libdlr.so") (".so")
        ["x.txt", "a.so", "b.so"] = some a ∧ a.model_lib = some ("b.so")) := by
  refine ⟨by decide, ?_⟩
  exact (treelite_locator_last_match ("libdlr.so") (".so")
    ["x.txt", "a.so", "b.so"]).2 ("b.so") (by decide)

theorem hexagonFoldl_none (files : List String) :
    files.foldl hexagonClassifyStep none = none := by
  induction files with
  | nil => rfl
  | cons f t ih => rw [List.foldl_cons]; exact ih

theorem hexagonStep_not_match (a : HexagonModelArtifact) (f : String)
    (h : hexagonLibMatch f = false) :
    ∃ a2, hexagonClassifyStep (some a) f = some a2 ∧
      a2.model_file = a.model_file := by
  unfold hexagonClassifyStep
  by_cases hs : f == ("libhexagon_nn_skel.so")
  · refine ⟨{ a with skeleton_file := some f }, ?_, rfl⟩
    simp [h, hs]
  · refine ⟨a, ?_, rfl⟩
    simp [h, hs]

theorem hexagonStep_match_none (a : HexagonModelArtifact) (f : String)
    (hm : hexagonLibMatch f = true) (hn : a.model_file = none) :
    hexagonClassifyStep (some a) f = some { a with model_file := some f } := by
  unfold hexagonClassifyStep
  simp [hm, hn]

theorem hexagonStep_match_some (a : HexagonModelArtifact) (f mf0 : String)
    (hm : hexagonLibMatch f = true) (hs : a.model_file = some mf0) :
    hexagonClassifyStep (some a) f = none := by
  unfold hexagonClassifyStep
  simp [hm, hs]

/-- Case analysis of the Hexagon classification fold: starting from a given
accumulator, the outcome is determined by the number of matching files. -/
theorem hexagonClassify_cases : ∀ (files : List String)
    (a : HexagonModelArtifact),
    (a.model_file = none → files.filter hexagonLibMatch = [] →
      ∃ a2, files.foldl hexagonClassifyStep (some a) = some a2 ∧
        a2.model_file = none) ∧
    (∀ mf, a.model_file = none → files.filter hexagonLibMatch = [mf] →
      ∃ a2, files.foldl hexagonClassifyStep (some a) = some a2 ∧
        a2.model_file = some mf) ∧
    (a.model_file = none → 2 ≤ (files.filter hexagonLibMatch).length →
      files.foldl hexagonClassifyStep (some a) = none) ∧
    (∀ mf0, a.model_file = some mf0 → files.filter hexagonLibMatch = [] →
      ∃ a2, files.foldl hexagonClassifyStep (some a) = some a2 ∧
        a2.model_file = some mf0) ∧
    (∀ mf0, a.model_file = some mf0 → files.filter hexagonLibMatch ≠ [] →
      files.foldl hexagonClassifyStep (some a) = none) := by
  intro files
  induction files with
  | nil =>
    intro a
    refine ⟨?_, ?_, ?_, ?_, ?_⟩
    · intro h _; exact ⟨a, rfl, h⟩
    · intro mf _ hf; simp at hf
    · intro _ hlen; simp at hlen
    · intro mf0 h _; exact ⟨a, rfl, h⟩
    · intro mf0 _ hne; simp at hne
  | cons f t ih =>
    intro a
    by_cases hm : hexagonLibMatch f = true
    · have hfc : (f :: t).filter hexagonLibMatch
          = f :: t.filter hexagonLibMatch := by
        rw [List.filter_cons, if_pos hm]
      refine ⟨?_, ?_, ?_, ?_, ?_⟩
      · intro _ hnil; rw [hfc] at hnil; simp at hnil
      · intro mf hnone hone
        rw [hfc] at hone
        injection hone with h1 h2
        rw [List.foldl_cons, hexagonStep_match_none a f hm hnone]
        subst h1
        exact (ih _).2.2.2.1 f rfl h2
      · intro hnone hlen
        rw [List.foldl_cons, hexagonStep_match_none a f hm hnone]
        have hne : t.filter hexagonLibMatch ≠ [] := by
          intro hnil
          rw [hfc, hnil] at hlen
          simp at hlen
        exact (ih _).2.2.2.2 f rfl hne
      · intro mf0 hsome hnil
        rw [hfc] at hnil; simp at hnil
      · intro mf0 hsome _
        rw [List.foldl_cons, hexagonStep_match_some a f mf0 hm hsome]
        exact hexagonFoldl_none t
    · have hm2 : hexagonLibMatch f = false := by
        revert hm; cases hexagonLibMatch f <;> simp
      have hfc : (f :: t).filter hexagonLibMatch
          = t.filter hexagonLibMatch := by
        rw [List.filter_cons, if_neg hm]
      obtain ⟨a2, hstep, hmf⟩ := hexagonStep_not_match a f hm2
      refine ⟨?_, ?_, ?_, ?_, ?_⟩
      · intro hnone hnil
        rw [hfc] at hnil
        rw [List.foldl_cons, hstep]
        exact (ih a2).1 (hmf.trans hnone) hnil
      · intro mf hnone hone
        rw [hfc] at hone
        rw [List.foldl_cons, hstep]
        exact (ih a2).2.1 mf (hmf.trans hnone) hone
      · intro hnone hlen
        rw [hfc] at hlen
        rw [List.foldl_cons, hstep]
        exact (ih a2).2.2.1 (hmf.trans hnone) hlen
      · intro mf0 hsome hnil
        rw [hfc] at hnil
        rw [List.foldl_cons, hstep]
        exact (ih a2).2.2.2.1 mf0 (hmf.trans hsome) hnil
      · intro mf0 hsome hne
        rw [hfc] at hne
        rw [List.foldl_cons, hstep]
        exact (ih a2).2.2.2.2 mf0 (hmf.trans hsome) hne

theorem finishHexagon_not_found (a : HexagonModelArtifact)
    (h : a.model_file = none) : finishHexagonArtifact (some a) = none := by
  show (match a.model_file with
        | none => none
        | some _ => some a) = none
  rw [h]

theorem finishHexagon_found (a : HexagonModelArtifact) (mf : String)
    (h : a.model_file = some mf) : finishHexagonArtifact (some a) = some a := by
  show (match a.model_file with
        | none => none
        | some _ => some a) = some a
  rw [h]

/-- Claim C5: a Hexagon model directory with exactly one file ending in the
fixed model suffix yields a successful artifact recording that file; with zero
or two or more such files, artifact location fails fatally. -/
theorem hexagon_locator_exactly_one (files : List String) :
    (∀ mf, files.filter hexagonLibMatch = [mf] →
      ∃ a, HexagonModel.InitModelArtifact files = some a ∧
        a.model_file = some mf) ∧
    ((files.filter hexagonLibMatch).length ≠ 1 →
      HexagonModel.InitModelArtifact files = none) := by
  have hc := hexagonClassify_cases files {}
  constructor
  · intro mf hone
    obtain ⟨a2, hfold, hmf⟩ := hc.2.1 mf rfl hone
    refine ⟨a2, ?_, hmf⟩
    unfold HexagonModel.InitModelArtifact
    rw [hfold]
    exact finishHexagon_found a2 mf hmf
  · intro hne
    cases hflt : files.filter hexagonLibMatch with
    | nil =>
      obtain ⟨a2, hfold, hmf⟩ := hc.1 rfl hflt
      unfold HexagonModel.InitModelArtifact
      rw [hfold]
      exact finishHexagon_not_found a2 hmf
    | cons x xs =>
      cases xs with
      | nil => exact absurd (by rw [hflt]; rfl) hne
      | cons y ys =>
        have h2 : 2 ≤ (files.filter hexagonLibMatch).length := by
          rw [hflt]
          simp [List.length_cons]
        have hfold := hc.2.2.1 rfl h2
        unfold HexagonModel.InitModelArtifact
        rw [hfold]
        rfl

/-- Claim C5 (witness): a directory with exactly one model-suffixed file; the
locator succeeds and records it. -/
theorem hexagon_locator_exactly_one_witness :
    (["libhexagon_nn_skel.so", "net_hexagon_model.so"].filter hexagonLibMatch
      = [("net_hexagon_model.so")]) ∧
    (∃ a, HexagonModel.InitModelArtifact
        ["libhexagon_nn_skel.so", "net_hexagon_model.so"] = some a ∧
      a.model_file = some ("net_hexagon_model.so")) := by
  refine ⟨by decide, ?_⟩
  exact (hexagon_locator_exactly_one
    ["libhexagon_nn_skel.so", "net_hexagon_model.so"]).1
    ("net_hexagon_model.so") (by decide)

theorem memcpy_lt (dst src : Nat → Nat) (n k : Nat) (h : k < n) :
    memcpy dst src n k = src k := by
  unfold memcpy
  rw [if_pos h]

theorem memcpy_ge (dst src : Nat → Nat) (n k : Nat) (h : n ≤ k) :
    memcpy dst src n k = dst k := by
  unfold memcpy
  rw [if_neg (Nat.not_lt.mpr h)]

theorem hexagonSetInput_resolved (m : HexagonModel) (name : String)
    (shape : Nat → Int) (input : Nat → Nat) (dim : Int) (index : Nat)
    (hid : m.GetInputId name = some index) :
    m.SetInput name shape input dim = hexagonSetInputAt m index shape input dim
    := by
  unfold HexagonModel.SetInput
  rw [hid]
  rfl

/-- Claim C2: once the name resolves to an input spec, a rank mismatch or any
extent mismatch makes SetInput fail fatally with no bytes copied into the
backend buffer; when rank and all extents match, exactly spec.bytes bytes are
copied from the caller buffer, the rest of the backend buffer unchanged. -/
theorem hexagon_setinput_validation (m : HexagonModel) (name : String)
    (shape : Nat → Int) (input : Nat → Nat) (dim : Int) (index : Nat)
    (spec : HexagonTensorSpec)
    (hid : m.GetInputId name = some index)
    (hspec : m.input_tensors_spec_.getD index emptyHexSpec = spec) :
    ((dim ≠ (spec.dim : Int) ∨ ∃ i, i < spec.dim ∧
        shape i ≠ spec.shape.getD i 0) →
      m.SetInput name shape input dim = none) ∧
    (dim = (spec.dim : Int) →
      (∀ i, i < spec.dim → shape i = spec.shape.getD i 0) →
      m.SetInput name shape input dim
        = some { m with input_ := memcpy m.input_ input spec.bytes } ∧
      (∀ k, k < spec.bytes → memcpy m.input_ input spec.bytes k = input k) ∧
      (∀ k, spec.bytes ≤ k → memcpy m.input_ input spec.bytes k = m.input_ k))
    := by
  rw [hexagonSetInput_resolved m name shape input dim index hid]
  unfold hexagonSetInputAt
  rw [hspec]
  constructor
  · rintro (hne | ⟨i, hilt, hine⟩)
    · rw [if_neg hne]
    · have hall : ¬ ((List.range spec.dim).all
          (fun i => shape i == spec.shape.getD i 0) = true) := by
        intro hall
        rw [List.all_eq_true] at hall
        have := hall i (List.mem_range.mpr hilt)
        exact hine (by simpa using this)
      by_cases hd : dim = (spec.dim : Int)
      · rw [if_pos hd, if_neg hall]
      · rw [if_neg hd]
  · intro hd hsh
    have hall : (List.range spec.dim).all
        (fun i => shape i == spec.shape.getD i 0) = true := by
      rw [List.all_eq_true]
      intro i hi
      simpa using hsh i (List.mem_range.mp hi)
    rw [if_pos hd, if_pos hall]
    refine ⟨rfl, ?_, ?_⟩
    · intro k hk; exact memcpy_lt _ _ _ _ hk
    · intro k hk; exact memcpy_ge _ _ _ _ hk

/-- Claim C2 (witness): a concrete model with one input spec; a wrong extent
is rejected, the conforming shape copies the declared 4 bytes. -/
theorem hexagon_setinput_validation_witness :
    (hexW.GetInputId ("x") = some 0) ∧
    (hexW.input_tensors_spec_.getD 0 emptyHexSpec = hexWSpec) ∧
    (hexW.SetInput ("x") (fun _ => 3) (fun k => k + 10) 2 = none) ∧
    (hexW.SetInput ("x") (fun _ => 2) (fun k => k + 10) 2
      = some { hexW with
          input_ := memcpy hexW.input_ (fun k => k + 10) hexWSpec.bytes }) := by
  have h := hexagon_setinput_validation hexW ("x") (fun _ => 3)
    (fun k => k + 10) 2 0 hexWSpec (by decide) (by decide)
  have h2 := hexagon_setinput_validation hexW ("x") (fun _ => 2)
    (fun k => k + 10) 2 0 hexWSpec (by decide) (by decide)
  refine ⟨by decide, by decide, ?_, ?_⟩
  · exact h.1 (Or.inr ⟨0, by decide, by decide⟩)
  · exact (h2.2 (by decide) (by decide)).1

/-- Claim C4: GetOutput bounds-checks the index against the output-spec
count: every index outside 0 <= index < count is fatal (negative indices are
rejected by the int-to-size_t conversion in CHECK_LT), and an in-range index
copies exactly the declared byte count of that output spec into the caller
buffer, leaving the rest of the caller buffer unchanged.  The side conditions
record the machine ranges of the C types: index is a 32-bit int and the spec
count, a size_t, is far below 2 to the 63. -/
theorem hexagon_getoutput_bounds (m : HexagonModel) (index : Int)
    (out : Nat → Nat) (spec : HexagonTensorSpec)
    (hcount : m.num_outputs_ = m.output_tensors_spec_.length)
    (hsmall : m.num_outputs_ < 2 ^ 63)
    (hlo : -(2 ^ 31) ≤ index) (hhi : index < 2 ^ 31) :
    (¬ (0 ≤ index ∧ index < (m.output_tensors_spec_.length : Int)) →
      m.GetOutput index out = none) ∧
    (0 ≤ index → index < (m.output_tensors_spec_.length : Int) →
      m.output_tensors_spec_.getD index.toNat emptyHexSpec = spec →
      m.GetOutput index out = some (memcpy out m.output_ spec.bytes) ∧
      (∀ k, k < spec.bytes → memcpy out m.output_ spec.bytes k = m.output_ k) ∧
      (∀ k, spec.bytes ≤ k → memcpy out m.output_ spec.bytes k = out k)) := by
  have hpow : ((2 : Int) ^ 64) = 18446744073709551616 := by norm_num
  have hlo2 : -(2147483648 : Int) ≤ index := by
    calc -(2147483648 : Int) = -(2 ^ 31) := by norm_num
    _ ≤ index := hlo
  have hhi2 : index < (2147483648 : Int) := by
    calc index < 2 ^ 31 := hhi
    _ = (2147483648 : Int) := by norm_num
  have hsmall2 : m.num_outputs_ < 9223372036854775808 := by
    calc m.num_outputs_ < 2 ^ 63 := hsmall
    _ = 9223372036854775808 := by norm_num
  constructor
  · intro hout
    have hcheck : ¬ (toSizeT index < m.num_outputs_) := by
      unfold toSizeT
      rw [hpow, hcount] at *
      omega
    unfold HexagonModel.GetOutput
    rw [if_neg hcheck]
  · intro h0 hin hspec
    have hcheck : toSizeT index < m.num_outputs_ := by
      unfold toSizeT
      rw [hpow, hcount] at *
      omega
    unfold HexagonModel.GetOutput
    rw [if_pos hcheck, hspec]
    refine ⟨rfl, ?_, ?_⟩
    · intro k hk; exact memcpy_lt _ _ _ _ hk
    · intro k hk; exact memcpy_ge _ _ _ _ hk

/-- Claim C4 (witness): concrete model with one output spec of 3 bytes.
Index -1 and index 1 are fatal; index 0 copies bytes 0..2 from the backend
output buffer. -/
theorem hexagon_getoutput_bounds_witness :
    (hexW.num_outputs_ = hexW.output_tensors_spec_.length) ∧
    (hexW.GetOutput (-1) (fun _ => 7) = none) ∧
    (hexW.GetOutput 1 (fun _ => 7) = none) ∧
    (hexW.GetOutput 0 (fun _ => 7)
      = some (memcpy (fun _ => 7) hexW.output_ hexWOutSpec.bytes)) ∧
    (memcpy (fun _ => 7) hexW.output_ hexWOutSpec.bytes 2 = hexW.output_ 2) ∧
    (memcpy (fun _ => 7) hexW.output_ hexWOutSpec.bytes 3 = 7) := by
  have hneg := (hexagon_getoutput_bounds hexW (-1) (fun _ => 7) hexWOutSpec
    rfl (by decide) (by decide) (by decide)).1 (by decide)
  have hbig := (hexagon_getoutput_bounds hexW 1 (fun _ => 7) hexWOutSpec
    rfl (by decide) (by decide) (by decide)).1 (by decide)
  have hok := (hexagon_getoutput_bounds hexW 0 (fun _ => 7) hexWOutSpec
    rfl (by decide) (by decide) (by decide)).2 (by decide)
    (by decide) (by decide)
  refine ⟨rfl, hneg, hbig, hok.1, ?_, ?_⟩
  · exact hok.2.1 2 (by decide)
  · exact hok.2.2 3 (by decide)

/-- Claim C6: for a discovered input name, SetInput with the spec-conforming
shape followed immediately by GetInput yields the caller buffer equal to the
set buffer byte-for-byte over the declared byte count of the spec. -/
theorem hexagon_set_get_roundtrip (m : HexagonModel) (name : String)
    (shape : Nat → Int) (buf out : Nat → Nat) (index : Nat)
    (spec : HexagonTensorSpec)
    (hid : m.GetInputId name = some index)
    (hspec : m.input_tensors_spec_.getD index emptyHexSpec = spec)
    (hsh : ∀ i, i < spec.dim → shape i = spec.shape.getD i 0) :
    ∃ m2 res,
      m.SetInput name shape buf (spec.dim : Int) = some m2 ∧
      m2.GetInput name out = some res ∧
      (∀ k, k < spec.bytes → res k = buf k) := by
  obtain ⟨hset, hcopy, _⟩ :=
    (hexagon_setinput_validation m name shape buf (spec.dim : Int) index spec
      hid hspec).2 rfl hsh
  refine ⟨{ m with input_ := memcpy m.input_ buf spec.bytes },
    memcpy out (memcpy m.input_ buf spec.bytes) spec.bytes, hset, ?_, ?_⟩
  · have hid2 : HexagonModel.GetInputId
        { m with input_ := memcpy m.input_ buf spec.bytes } name
        = some index := hid
    unfold HexagonModel.GetInput
    rw [hid2]
    show some (memcpy out (memcpy m.input_ buf spec.bytes)
        ((m.input_tensors_spec_.getD index emptyHexSpec).bytes))
      = some (memcpy out (memcpy m.input_ buf spec.bytes) spec.bytes)
    rw [hspec]
  · intro k hk
    rw [memcpy_lt _ _ _ _ hk, memcpy_lt _ _ _ _ hk]

/-- Claim C6 (witness): concrete round trip over the 4 declared bytes. -/
theorem hexagon_set_get_roundtrip_witness :
    (hexW.GetInputId ("x") = some 0) ∧
    (∃ m2 res,
      hexW.SetInput ("x") (fun _ => 2) (fun k => k + 10)
        ((hexWSpec.dim : Nat) : Int) = some m2 ∧
      m2.GetInput ("x") (fun _ => 0) = some res ∧
      (∀ k, k < hexWSpec.bytes → res k = k + 10)) := by
  refine ⟨by decide, ?_⟩
  exact hexagon_set_get_roundtrip hexW ("x") (fun _ => 2) (fun k => k + 10)
    (fun _ => 0) 0 hexWSpec (by decide) (by decide) (by decide)

/-- When the backend map answers the first k ids and fails at id k, the
discovery loop returns exactly the k specs in query order. -/
theorem discoverSpecs_get? (query : Nat → Option HexagonTensorSpec) :
    ∀ (fuel k id : Nat), k < fuel →
      query (id + k) = none →
      (∀ j, j < k → (query (id + j)).isSome = true) →
      (discoverSpecs query fuel id).length = k ∧
      (∀ j, (discoverSpecs query fuel id).get? j
        = if j < k then query (id + j) else none) := by
  intro fuel
  induction fuel with
  | zero => intro k id hk; omega
  | succ fuel ih =>
    intro k id hk hterm hok
    cases k with
    | zero =>
      have hq : query id = none := by simpa using hterm
      unfold discoverSpecs
      rw [hq]
      refine ⟨rfl, ?_⟩
      intro j
      rw [if_neg (by omega)]
      rfl
    | succ k2 =>
      have h0 : (query (id + 0)).isSome = true := hok 0 (by omega)
      obtain ⟨s, hs⟩ := Option.isSome_iff_exists.mp (by simpa using h0)
      have hshift : id + 1 + k2 = id + (k2 + 1) := by omega
      have hrec := ih k2 (id + 1) (by omega)
        (by rw [hshift]; exact hterm)
        (fun j hj => by
          have : id + 1 + j = id + (j + 1) := by omega
          rw [this]
          exact hok (j + 1) (by omega))
      unfold discoverSpecs
      rw [hs]
      refine ⟨?_, ?_⟩
      · simp [hrec.1]
      · intro j
        cases j with
        | zero =>
          have : id + 0 = id := by omega
          rw [if_pos (by omega), this]
          simpa using hs.symm
        | succ j2 =>
          have hg : (s :: discoverSpecs query fuel (id + 1)).get? (j2 + 1)
              = (discoverSpecs query fuel (id + 1)).get? j2 := rfl
          rw [hg, hrec.2 j2]
          by_cases hj : j2 < k2
          · rw [if_pos hj, if_pos (by omega)]
            congr 1
            omega
          · rw [if_neg hj, if_neg (by omega)]

theorem initSpecs_fields (m : HexagonModel)
    (inQuery outQuery : Nat → Option HexagonTensorSpec) (fuel : Nat) :
    (m.InitInputOutputTensorSpecs inQuery outQuery fuel).input_tensors_spec_
      = m.input_tensors_spec_ ++ discoverSpecs inQuery fuel 0 ∧
    (m.InitInputOutputTensorSpecs inQuery outQuery fuel).input_names_
      = m.input_names_
        ++ (discoverSpecs inQuery fuel 0).map (fun s => s.name) ∧
    (m.InitInputOutputTensorSpecs inQuery outQuery fuel).output_tensors_spec_
      = m.output_tensors_spec_ ++ discoverSpecs outQuery fuel 0 ∧
    (m.InitInputOutputTensorSpecs inQuery outQuery fuel).num_inputs_
      = (m.input_tensors_spec_ ++ discoverSpecs inQuery fuel 0).length ∧
    (m.InitInputOutputTensorSpecs inQuery outQuery fuel).num_outputs_
      = (m.output_tensors_spec_ ++ discoverSpecs outQuery fuel 0).length := by
  refine ⟨rfl, rfl, rfl, rfl, rfl⟩

/-- Claim C9: schema discovery queries ids ascending from 0 until the first
termination answer, independently for inputs and outputs; each successful
query appends exactly one spec in discovery order, input names are mirrored
into the name list in the same order, and after construction GetNumInputs and
GetNumOutputs equal the number of discovered specs. -/
theorem hexagon_schema_discovery (m : HexagonModel)
    (inQuery outQuery : Nat → Option HexagonTensorSpec)
    (kin kout fuel : Nat)
    (hin0 : m.input_tensors_spec_ = [])
    (hout0 : m.output_tensors_spec_ = [])
    (hnames0 : m.input_names_ = [])
    (hinterm : inQuery kin = none)
    (hinok : ∀ j, j < kin → (inQuery j).isSome = true)
    (houterm : outQuery kout = none)
    (houtok : ∀ j, j < kout → (outQuery j).isSome = true)
    (hfin : kin < fuel) (hfout : kout < fuel) :
    (m.InitInputOutputTensorSpecs inQuery outQuery fuel).GetNumInputs = kin ∧
    (m.InitInputOutputTensorSpecs inQuery outQuery fuel).GetNumOutputs
      = kout ∧
    (∀ j, (m.InitInputOutputTensorSpecs inQuery outQuery
        fuel).input_tensors_spec_.get? j
      = if j < kin then inQuery j else none) ∧
    (∀ j, (m.InitInputOutputTensorSpecs inQuery outQuery
        fuel).output_tensors_spec_.get? j
      = if j < kout then outQuery j else none) ∧
    (m.InitInputOutputTensorSpecs inQuery outQuery fuel).input_names_
      = ((m.InitInputOutputTensorSpecs inQuery outQuery
          fuel).input_tensors_spec_).map (fun s => s.name) := by
  obtain ⟨hf1, hf2, hf3, hf4, hf5⟩ := initSpecs_fields m inQuery outQuery fuel
  have hdin := discoverSpecs_get? inQuery fuel kin 0 hfin
    (by simpa using hinterm) (fun j hj => by simpa using hinok j hj)
  have hdout := discoverSpecs_get? outQuery fuel kout 0 hfout
    (by simpa using houterm) (fun j hj => by simpa using houtok j hj)
  refine ⟨?_, ?_, ?_, ?_, ?_⟩
  · unfold HexagonModel.GetNumInputs
    rw [hf4, hin0, List.nil_append, hdin.1]
  · unfold HexagonModel.GetNumOutputs
    rw [hf5, hout0, List.nil_append, hdout.1]
  · intro j
    rw [hf1, hin0, List.nil_append]
    simpa using hdin.2 j
  · intro j
    rw [hf3, hout0, List.nil_append]
    simpa using hdout.2 j
  · rw [hf1, hf2, hin0, hnames0, List.nil_append, List.nil_append]

/-- Claim C9 (witness): with one input spec and two output specs discovered,
the counts and the mirrored name list come out as discovered. -/
theorem hexagon_schema_discovery_witness :
    (hexQin 1 = none) ∧ (hexQout 2 = none) ∧
    ((hexM0.InitInputOutputTensorSpecs hexQin hexQout 3).GetNumInputs = 1) ∧
    ((hexM0.InitInputOutputTensorSpecs hexQin hexQout 3).GetNumOutputs
      = 2) ∧
    ((hexM0.InitInputOutputTensorSpecs hexQin hexQout 3).input_names_
      = ((hexM0.InitInputOutputTensorSpecs hexQin
          hexQout 3).input_tensors_spec_).map (fun s => s.name)) := by
  have h := hexagon_schema_discovery hexM0 hexQin hexQout 1 2 3 rfl rfl rfl
    (by decide) (by decide) (by decide) (by decide) (by decide) (by decide)
  exact ⟨by decide, by decide, h.1, h.2.1, h.2.2.2.2⟩

theorem toSizeT_eq_toNat (x : Int) (h0 : 0 ≤ x) (h : x < 2 ^ 64) :
    toSizeT x = x.toNat := by
  unfold toSizeT
  rw [Int.emod_eq_of_lt h0 h]

theorem toUInt32Nat_eq_toNat (x : Int) (h0 : 0 ≤ x) (h : x < 2 ^ 32) :
    toUInt32Nat x = x.toNat := by
  unfold toUInt32Nat
  rw [Int.emod_eq_of_lt h0 h]

theorem rowEntries_eq (input : Nat → F32) (numCol i : Nat) :
    rowEntries input numCol i
      = ((List.range numCol).filter
          (fun j => !(input (i * numCol + j)).isnan)).map
          (fun j => (input (i * numCol + j), j)) := by
  unfold rowEntries
  have h : ∀ (l : List Nat),
      l.filterMap (fun j =>
        if (input (i * numCol + j)).isnan then none
        else some (input (i * numCol + j), j))
      = (l.filter (fun j => !(input (i * numCol + j)).isnan)).map
          (fun j => (input (i * numCol + j), j)) := by
    intro l
    induction l with
    | nil => rfl
    | cons a t ih =>
      rw [List.filterMap_cons, List.filter_cons]
      cases ha : (input (i * numCol + a)).isnan
      · simp only [ha, Bool.not_false, if_neg Bool.false_ne_true,
          if_true, List.map_cons]
        rw [ih]
      · simp only [ha, Bool.not_true, if_pos rfl]
        rw [ih]
        rfl
  exact h (List.range numCol)

theorem csrPairs_succ (input : Nat → F32) (numCol k : Nat) :
    csrPairs input numCol (k + 1)
      = csrPairs input numCol k ++ rowEntries input numCol k := by
  unfold csrPairs
  rw [List.range_succ, List.flatMap_append]
  simp

theorem csrRowPtr_getD (input : Nat → F32) (numCol batch i : Nat)
    (h : i < batch + 1) :
    (csrRowPtr input numCol batch).getD i 0
      = (csrPairs input numCol i).length := by
  unfold csrRowPtr
  rw [List.getD_eq_getElem?_getD, List.getElem?_map, List.getElem?_range h]
  rfl

theorem csrRowPtr_getLast? (input : Nat → F32) (numCol batch : Nat) :
    (csrRowPtr input numCol batch).getLast?
      = some (csrPairs input numCol batch).length := by
  unfold csrRowPtr
  rw [List.range_succ, List.map_append]
  simp

theorem csrPost_holds (features : Nat) (input : Nat → F32)
    (numCol batch : Nat) :
    csrPost (mkCsrInput features input numCol batch) batch := by
  unfold csrPost mkCsrInput
  refine ⟨by simp, ?_, by simp [csrRowPtr]⟩
  rw [csrRowPtr_getLast?]
  simp

/-- Claim C1: every Treelite SetInput call with dim 2, rows at least 0 and
columns at most the declared feature count builds a sparse input whose data
and col_ind contain exactly the non-NaN cells in row-then-column order, with
len(data) = len(col_ind) = row_ptr(last), len(row_ptr) = rows + 1, and
row_ptr monotonically non-decreasing with per-row deltas equal to the non-NaN
count of the row.  The range side conditions record that shape values are
int64 and the column count fits the uint32 the loop uses. -/
theorem treelite_setinput_csr_invariants (m : TreeliteModel) (name : String)
    (shape0 shape1 : Int) (input : Nat → F32)
    (h0 : 0 ≤ shape0) (h0r : shape0 < 2 ^ 63)
    (h1 : 0 ≤ shape1) (h1r : shape1 < 2 ^ 32)
    (hle : shape1.toNat ≤ m.treelite_num_feature_) :
    CsrInvariants m name shape0 shape1 input := by
  have hs0 : toSizeT shape0 = shape0.toNat :=
    toSizeT_eq_toNat shape0 h0 (lt_trans h0r (by norm_num))
  have hs1 : toSizeT shape1 = shape1.toNat :=
    toSizeT_eq_toNat shape1 h1 (lt_trans h1r (by norm_num))
  have hu1 : toUInt32Nat shape1 = shape1.toNat :=
    toUInt32Nat_eq_toNat shape1 h1 h1r
  unfold CsrInvariants
  refine ⟨mkCsrInput m.treelite_num_feature_ input shape1.toNat shape0.toNat,
    ?_, ?_, ?_, ?_, ?_, ?_, ?_⟩
  · unfold TreeliteModel.SetInput
    rw [if_pos rfl, hs1, hu1, hs0, if_pos hle,
      if_pos (csrPost_holds m.treelite_num_feature_ input shape1.toNat
        shape0.toNat)]
  · simp [mkCsrInput]
  · show (csrRowPtr input shape1.toNat shape0.toNat).getLast?
      = some ((csrPairs input shape1.toNat shape0.toNat).map Prod.fst).length
    rw [csrRowPtr_getLast?]
    simp
  · simp [mkCsrInput, csrRowPtr]
  · intro i hi
    have hlen : (mkCsrInput m.treelite_num_feature_ input shape1.toNat
        shape0.toNat).row_ptr.length = shape0.toNat + 1 := by
      simp [mkCsrInput, csrRowPtr]
    rw [hlen] at hi
    show (csrRowPtr input shape1.toNat shape0.toNat).getD i 0
      ≤ (csrRowPtr input shape1.toNat shape0.toNat).getD (i + 1) 0
    rw [csrRowPtr_getD input shape1.toNat shape0.toNat i (by omega),
      csrRowPtr_getD input shape1.toNat shape0.toNat (i + 1) (by omega),
      csrPairs_succ, List.length_append]
    omega
  · intro i hi
    show (csrRowPtr input shape1.toNat shape0.toNat).getD (i + 1) 0
        - (csrRowPtr input shape1.toNat shape0.toNat).getD i 0 = _
    rw [csrRowPtr_getD input shape1.toNat shape0.toNat (i + 1) (by omega),
      csrRowPtr_getD input shape1.toNat shape0.toNat i (by omega),
      csrPairs_succ, List.length_append, rowEntries_eq, List.length_map]
    omega
  · show ((csrPairs input shape1.toNat shape0.toNat).map Prod.fst).zip
      ((csrPairs input shape1.toNat shape0.toNat).map Prod.snd) = _
    rw [List.zip_map']
    have hid : (csrPairs input shape1.toNat shape0.toNat).map
        (fun p => (p.1, p.2)) = csrPairs input shape1.toNat shape0.toNat := by
      simp
    rw [hid]
    unfold csrPairs
    simp only [rowEntries_eq]

/-- Claim C1 (witness): on a 2 x 2 buffer with one NaN the built CSR has
col_ind = [0, 0, 1] and row_ptr = [0, 1, 3]. -/
theorem treelite_setinput_csr_invariants_witness :
    ((0 : Int) ≤ 2 ∧ (2 : Int) < 2 ^ 63 ∧ (0 : Int) ≤ 2 ∧
      (2 : Int) < 2 ^ 32 ∧
      (2 : Int).toNat ≤ treeliteW.treelite_num_feature_) ∧
    CsrInvariants treeliteW ("data") 2 2 inW ∧
    ((treeliteW.SetInput ("data") 2 2 inW 2).map (fun m2 =>
        m2.treelite_input_.map (fun ti => (ti.col_ind, ti.row_ptr)))
      = some (some ([0, 0, 1], [0, 1, 3]))) := by
  refine ⟨⟨by norm_num, by norm_num, by norm_num, by norm_num, by decide⟩,
    ?_, by decide⟩
  exact treelite_setinput_csr_invariants treeliteW ("data") 2 2 inW
    (by norm_num) (by norm_num) (by norm_num) (by norm_num) (by decide)

/-- Claim C7: Run without a prior successful SetInput is fatal and produces
no output; with an input set, Run resizes the output buffer to rows times the
declared output-group count and invokes batch prediction on the registered
handle. -/
theorem treelite_run_requires_input (m : TreeliteModel) :
    (m.treelite_input_ = none → m.Run = none) ∧
    (∀ ti, m.treelite_input_ = some ti →
      m.Run = some ({ m with
          treelite_output_ := listResize m.treelite_output_
            (ti.num_row * m.treelite_output_buffer_size_) }, ti.handle) ∧
      (listResize m.treelite_output_
          (ti.num_row * m.treelite_output_buffer_size_)).length
        = ti.num_row * m.treelite_output_buffer_size_) := by
  constructor
  · intro h
    unfold TreeliteModel.Run
    rw [h]
  · intro ti h
    constructor
    · unfold TreeliteModel.Run
      rw [h]
    · unfold listResize
      rw [List.length_append, List.length_take, List.length_replicate]
      omega

/-- Claim C7 (witness): Run is fatal on the fresh model and, once an input is
set, returns the registered handle with the output resized to
num_row * output-group-count = 4 floats. -/
theorem treelite_run_requires_input_witness :
    (treeliteW.treelite_input_ = none) ∧ (treeliteW.Run = none) ∧
    (treeliteWIn.Run = some ({ treeliteWIn with
        treelite_output_ := listResize treeliteWIn.treelite_output_
          (tiW.num_row * treeliteWIn.treelite_output_buffer_size_) },
      tiW.handle)) ∧
    ((listResize treeliteWIn.treelite_output_
        (tiW.num_row * treeliteWIn.treelite_output_buffer_size_)).length
      = tiW.num_row * treeliteWIn.treelite_output_buffer_size_) := by
  have h1 := (treelite_run_requires_input treeliteW).1 rfl
  have h2 := (treelite_run_requires_input treeliteWIn).2 tiW rfl
  exact ⟨rfl, h1, h2.1, h2.2⟩

/-- Claim C8: GetOutputShape(0) writes [-1, W] before any SetInput, where W
is the discovered output width; after a successful SetInput with r rows it
writes [r, W]; and the second component is always the discovered output
width. -/
theorem treelite_getoutputshape_spec (m : TreeliteModel) (name : String)
    (shape0 shape1 : Int) (input : Nat → F32) :
    (m.treelite_input_ = none →
      m.GetOutputShape 0 = (-1, (m.treelite_output_size_ : Int))) ∧
    (∀ m2, m.SetInput name shape0 shape1 input 2 = some m2 →
      m2.GetOutputShape 0
        = ((toSizeT shape0 : Int), (m.treelite_output_size_ : Int))) ∧
    (∀ (mm : TreeliteModel) (index : Int),
      (mm.GetOutputShape index).2 = (mm.treelite_output_size_ : Int)) := by
  refine ⟨?_, ?_, ?_⟩
  · intro h
    unfold TreeliteModel.GetOutputShape
    rw [h]
  · intro m2 h
    unfold TreeliteModel.SetInput at h
    rw [if_pos rfl] at h
    by_cases h2 : toSizeT shape1 ≤ m.treelite_num_feature_
    · rw [if_pos h2, if_pos (csrPost_holds m.treelite_num_feature_ input
        (toUInt32Nat shape1) (toSizeT shape0))] at h
      have hx := Option.some.inj h
      subst hx
      rfl
    · rw [if_neg h2] at h
      exact Option.noConfusion h
  · intro mm index
    rfl

/-- Claim C8 (witness): on the concrete model the shape is [-1, 1] before
SetInput and [2, 1] after a SetInput with 2 rows. -/
theorem treelite_getoutputshape_spec_witness :
    (treeliteW.GetOutputShape 0 = (-1, 1)) ∧
    ((treeliteW.SetInput ("data") 2 2 inW 2).map
        (fun m2 => m2.GetOutputShape 0) = some (2, 1)) := by
  have hth := treelite_getoutputshape_spec treeliteW ("data") 2 2 inW
  constructor
  · have h := hth.1 rfl
    rw [h]
    decide
  · have hsome : (treeliteW.SetInput ("data") 2 2 inW 2).isSome = true := by
      decide
    obtain ⟨m2, hm2⟩ := Option.isSome_iff_exists.mp hsome
    have h := hth.2.1 m2 hm2
    rw [hm2]
    show some (m2.GetOutputShape 0) = some (2, 1)
    rw [h]
    decide

/-- Claim C10: a validated SetInput registers the sparse matrix (and saves
num_col) with the declared feature count, not the caller column count, and
the name argument is never inspected: two calls differing only in the name
behave identically. -/
theorem treelite_setinput_numcol_and_name (m : TreeliteModel)
    (name1 name2 : String) (shape0 shape1 : Int) (input : Nat → F32)
    (dim : Int) :
    (m.SetInput name1 shape0 shape1 input dim
      = m.SetInput name2 shape0 shape1 input dim) ∧
    (∀ m2, m.SetInput name1 shape0 shape1 input dim = some m2 →
      ∃ ti, m2.treelite_input_ = some ti ∧
        ti.num_col = m.treelite_num_feature_ ∧
        ti.handle.num_col = m.treelite_num_feature_) := by
  constructor
  · rfl
  · intro m2 h
    unfold TreeliteModel.SetInput at h
    by_cases hd : dim = 2
    · rw [if_pos hd] at h
      by_cases h2 : toSizeT shape1 ≤ m.treelite_num_feature_
      · rw [if_pos h2, if_pos (csrPost_holds m.treelite_num_feature_ input
          (toUInt32Nat shape1) (toSizeT shape0))] at h
        have hx := Option.some.inj h
        subst hx
        exact ⟨mkCsrInput m.treelite_num_feature_ input (toUInt32Nat shape1)
          (toSizeT shape0), rfl, rfl, rfl⟩
      · rw [if_neg h2] at h
        exact Option.noConfusion h
    · rw [if_neg hd] at h
      exact Option.noConfusion h

/-- Claim C10 (witness): with 2 caller columns and 3 declared features the
registered matrix has num_col 3, and changing the name changes nothing. -/
theorem treelite_setinput_numcol_and_name_witness :
    (treeliteW.SetInput ("alpha") 2 2 inW 2
      = treeliteW.SetInput ("beta") 2 2 inW 2) ∧
    ((treeliteW.SetInput ("alpha") 2 2 inW 2).map (fun m2 =>
        m2.treelite_input_.map (fun ti => (ti.num_col, ti.handle.num_col)))
      = some (some (3, 3))) := by
  have h := treelite_setinput_numcol_and_name treeliteW ("alpha") ("beta")
    2 2 inW 2
  refine ⟨h.1, ?_⟩
  have hsome : (treeliteW.SetInput ("alpha") 2 2 inW 2).isSome = true := by
    decide
  obtain ⟨m2, hm2⟩ := Option.isSome_iff_exists.mp hsome
  obtain ⟨ti, hti, hcol, hhcol⟩ := h.2 m2 hm2
  rw [hm2]
  show some (m2.treelite_input_.map
    (fun ti => (ti.num_col, ti.handle.num_col))) = some (some (3, 3))
  rw [hti]
  show some (some (ti.num_col, ti.handle.num_col)) = some (some (3, 3))
  rw [hcol, hhcol]
  rfl
